import Mathlib

set_option maxHeartbeats 2000000

/-!
Shallow embedding of the reactive-stream core in `src/09-observable/index.js`
(class `Observable`: `subscribe`, the internal subscriber, the returned
subscription, the operators `map` and `take`, and the constructors
`from`/`of`).

Modelling conventions:
* Emitted values are `Int`; thrown JS exceptions are `JsError` (a user-thrown
  error carrying an `Int` payload, plus the two engine errors this code can
  raise: the `TypeError` from calling the non-existent `this.error` at line 49,
  and the `ReferenceError` from touching the `const subscription` binding of
  `take` (line 205/213) before its initializer has finished).
* JS statements run in the monad `JsM σ` (state `σ` + exceptions); an uncaught
  exception aborts the rest of a `do` block, exactly like a JS throw.
* The per-subscription mutable closure state (`isStopped`, `unsubscribeFn`)
  is a `Cell`.  `hasCleanup` models `unsubscribeFn !== null`; the cleanup
  action itself is fixed per subscription (the source assigns it at most once,
  at lines 92-97).  `cleanupRuns` and `nextCalls` are pure instrumentation
  counters: `cleanupRuns` counts invocations of `unsubscribeFn()` (the
  "cleanup probe" of the spec) and `nextCalls` counts invocations of the
  subscriber's `next` method; neither influences control flow.
* Consumer observers (`CObserver`) are defunctionalized: each optional
  callback records the invocation in a trace and optionally throws.  Operator
  inner observers are translated directly from the source as `NObserver`
  actions.
* Synchronous producers are defunctionalized as scripts (`PCmd` lists) of
  `next`/`error`/`complete` calls; an infinite synchronous producer is a
  fuelled loop (`spinFn`), with fuel-independence expressing termination.
-/

/-! ## Single-subscription scenarios (`subscribe` called directly on a
constructor-built or scripted Observable) -/

/-! ## Two-subscription scenario: `map(fn)` applied to an upstream Observable
(lines 126-150 of the source).  `down` is the cell of the outer subscription
(consumer side), `up` the cell created by the inner `this.subscribe(...)`
call; `upInit` models whether the `const subscription` binding of line 134
has been initialized (it is in its temporal dead zone while the upstream
subscribe call is still running). -/

/-! ## Two-subscription scenario: `take(count)` applied to an upstream
Observable (lines 190-223 of the source). -/

/-! ## Lemmas about a single subscription -/

inductive JsError where
  | user : Int → JsError
  | typeError : JsError
  | refError : JsError
deriving DecidableEq

inductive Event where
  | next : Int → Event
  | error : JsError → Event
  | complete : Event
deriving DecidableEq

/-- The JS execution monad: state plus exceptions.  The state is always
returned, since JS mutations performed before a throw persist. -/
def JsM (σ α : Type) : Type := σ → Except JsError α × σ

def JsM.pure (a : α) : JsM σ α := fun s => (.ok a, s)

def JsM.bind (x : JsM σ α) (f : α → JsM σ β) : JsM σ β := fun s =>
  match x s with
  | (.ok a, s') => f a s'
  | (.error e, s') => (.error e, s')

instance : Monad (JsM σ) where
  pure := JsM.pure
  bind := JsM.bind

/-- A JS `throw`. -/
def jsThrow (e : JsError) : JsM σ α := fun s => (.error e, s)

/-- A JS `try { x } catch (e) { h e }`. -/
def jsTry (x : JsM σ α) (h : JsError → JsM σ α) : JsM σ α := fun s =>
  match x s with
  | (.ok a, s') => (.ok a, s')
  | (.error e, s') => h e s'

def jsGet : JsM σ σ := fun s => (.ok s, s)

def jsModify (f : σ → σ) : JsM σ Unit := fun s => (.ok (), f s)

/-- The mutable closure state shared by one subscriber/subscription pair
(lines 39-40 of the source): `isStopped`, and `hasCleanup` for
`unsubscribeFn !== null`.  `cleanupRuns`/`nextCalls` are instrumentation. -/
structure Cell where
  isStopped : Bool
  hasCleanup : Bool
  cleanupRuns : Nat
  nextCalls : Nat
deriving DecidableEq

def Cell.start : Cell := ⟨false, false, 0, 0⟩

/-- A lens to one subscription's `Cell` inside a scenario state. -/
structure CellRef (σ : Type) where
  get : σ → Cell
  set : Cell → σ → σ

/-- A lens to the consumer-callback trace inside a scenario state. -/
structure TraceRef (σ : Type) where
  get : σ → List Event
  set : List Event → σ → σ

/-- A normalized observer: the semantic callbacks handed to a subscriber
(`normalizedObserver` in the source).  Each callback is a JS action. -/
structure NObserver (σ : Type) where
  next : Option (Int → JsM σ Unit)
  error : Option (JsError → JsM σ Unit)
  complete : Option (JsM σ Unit)

/-- Everything one subscriber/subscription pair closes over: its cell, its
normalized observer, and the (unique) cleanup action that `unsubscribeFn`
holds whenever `hasCleanup` is true. -/
structure Layer (σ : Type) where
  ref : CellRef σ
  obs : NObserver σ
  cleanup : JsM σ Unit

def readCell (R : CellRef σ) : JsM σ Cell := fun s => (.ok (R.get s), s)

def modCell (R : CellRef σ) (f : Cell → Cell) : JsM σ Unit :=
  jsModify fun s => R.set (f (R.get s)) s

/-- Lines 63-66, 80-83 and 112-115 of the source:
`if (unsubscribeFn) { unsubscribeFn(); unsubscribeFn = null; }`. -/
def runCleanupSlot (R : CellRef σ) (cleanup : JsM σ Unit) : JsM σ Unit := do
  let c ← readCell R
  if c.hasCleanup then do
    modCell R fun c => { c with cleanupRuns := c.cleanupRuns + 1 }
    cleanup
    modCell R fun c => { c with hasCleanup := false }

/-- Lines 43-52 of the source.  `subscriber.next(value)`: if not stopped and
the observer has a `next` callback, invoke it; a throw from the callback is
caught and answered with `this.error(error)` — but `this` is the Observable,
which has no `error` method, so that call itself throws a `TypeError` which
propagates out of `next`. -/
def subscriberNext (L : Layer σ) (v : Int) : JsM σ Unit := do
  modCell L.ref fun c => { c with nextCalls := c.nextCalls + 1 }
  let c ← readCell L.ref
  if !c.isStopped then
    match L.obs.next with
    | some k => jsTry (k v) (fun _ => jsThrow .typeError)
    | none => pure ()

/-- Lines 53-68 of the source.  `subscriber.error(error)`: if not stopped,
set stopped, invoke the observer's `error` callback (swallowing anything it
throws), then run and clear the cleanup slot. -/
def subscriberError (L : Layer σ) (e : JsError) : JsM σ Unit := do
  let c ← readCell L.ref
  if !c.isStopped then do
    modCell L.ref fun c => { c with isStopped := true }
    (match L.obs.error with
      | some k => jsTry (k e) (fun _ => pure ())
      | none => pure ())
    runCleanupSlot L.ref L.cleanup

/-- Lines 69-85 of the source.  `subscriber.complete()`, symmetric to
`subscriber.error`. -/
def subscriberComplete (L : Layer σ) : JsM σ Unit := do
  let c ← readCell L.ref
  if !c.isStopped then do
    modCell L.ref fun c => { c with isStopped := true }
    (match L.obs.complete with
      | some k => jsTry k (fun _ => pure ())
      | none => pure ())
    runCleanupSlot L.ref L.cleanup

/-- Lines 107-118 of the source: the subscription object's `unsubscribe`. -/
def subscriptionUnsubscribe (R : CellRef σ) (cleanup : JsM σ Unit) : JsM σ Unit := do
  let c ← readCell R
  if !c.isStopped then do
    modCell R fun c => { c with isStopped := true }
    runCleanupSlot R cleanup

/-- Lines 89-101 of the source: run the subscribe-procedure inside
`try`/`catch`; if it returned a cleanup (modelled by the `Bool` result),
store it in `unsubscribeFn` (lines 92-97) — note this happens only after the
procedure has run; a synchronous throw is routed to `subscriber.error`. -/
def subscribeRun (L : Layer σ) (fn : JsM σ Bool) : JsM σ Unit :=
  jsTry
    (do
      let returned ← fn
      if returned then modCell L.ref fun c => { c with hasCleanup := true })
    (fun e => subscriberError L e)

/-- JS truthiness of a possibly-absent boolean property. -/
def jsTruthy : Option Bool → Bool
  | none => false
  | some b => b

/-- The subscriber object literal (lines 42-86) has exactly the keys `next`,
`error`, `complete`; reading `subscriber.isStopped` (line 271) accesses an
absent property and yields `undefined`. -/
def subscriberIsStoppedProp : Option Bool := none

/-- Lines 270-273 of the source: the iteration loop of `Observable.from`.
The guard `if (subscriber.isStopped) break` reads the absent property. -/
def fromLoop (L : Layer σ) : List Int → JsM σ Unit
  | [] => pure ()
  | v :: rest =>
    if jsTruthy subscriberIsStoppedProp then pure ()
    else do
      subscriberNext L v
      fromLoop L rest

/-- Lines 269-277 of the source: the subscribe-procedure built by
`Observable.from(array)`; it ends with `subscriber.complete()` and returns
the cleanup `() => {}` (so a cleanup is registered: result `true`). -/
def fromSubscribeFn (L : Layer σ) (S : List Int) : JsM σ Bool := do
  fromLoop L S
  subscriberComplete L
  pure true

/-- A defunctionalized synchronous producer command: one call the producer
makes on the subscriber it was handed. -/
inductive PCmd where
  | next : Int → PCmd
  | error : JsError → PCmd
  | complete : PCmd
deriving DecidableEq

/-- Run a producer script: the producer performs its calls in order and does
not catch exceptions, so a throw out of a subscriber method aborts it. -/
def scriptRun (L : Layer σ) : List PCmd → JsM σ Unit
  | [] => pure ()
  | .next v :: r => do
      subscriberNext L v
      scriptRun L r
  | .error e :: r => do
      subscriberError L e
      scriptRun L r
  | .complete :: r => do
      subscriberComplete L
      scriptRun L r

/-- A scripted subscribe-procedure that runs its calls and then returns a
cleanup function (result `true`). -/
def scriptFn (L : Layer σ) (P : List PCmd) : JsM σ Bool := do
  scriptRun L P
  pure true

/-- An infinite synchronous producer `subscriber => { let i = 0; while (true)
subscriber.next(i++); }`, modelled with fuel; the `fuel = 0` branch is
unreachable in the scenarios proved below (fuel-independence theorems show the
loop exits by itself). -/
def spinFn (L : Layer σ) : Nat → Int → JsM σ Bool
  | 0, _ => pure false
  | fuel + 1, i => do
      subscriberNext L i
      spinFn L fuel (i + 1)

/-- A defunctionalized consumer observer: each optional callback, when
invoked, is recorded in the trace and then optionally throws. -/
structure CObserver where
  onNext : Option (Int → Option JsError)
  onError : Option (JsError → Option JsError)
  onComplete : Option (Option JsError)

def emitEvent (T : TraceRef σ) (ev : Event) : JsM σ Unit :=
  jsModify fun s => T.set (T.get s ++ [ev]) s

def throwIf : Option JsError → JsM σ Unit
  | none => pure ()
  | some e => jsThrow e

/-- Interpret a consumer observer as semantic callbacks over a scenario state
with trace lens `T`. -/
def CObserver.interp (O : CObserver) (T : TraceRef σ) : NObserver σ where
  next := O.onNext.map fun f v => do
    emitEvent T (.next v)
    throwIf (f v)
  error := O.onError.map fun f e => do
    emitEvent T (.error e)
    throwIf (f e)
  complete := O.onComplete.map fun r => do
    emitEvent T .complete
    throwIf r

/-- The standard consumer: all three callbacks present, none throwing. -/
def fullObs : CObserver := ⟨some fun _ => none, some fun _ => none, some none⟩

/-- A consumer observer has all three callbacks present and none throwing. -/
def FullNonThrowing (O : CObserver) : Prop :=
  O.onNext = some (fun _ => none) ∧ O.onError = some (fun _ => none) ∧
    O.onComplete = some none

structure St1 where
  cell : Cell
  trace : List Event
deriving DecidableEq

def St1.start : St1 := ⟨Cell.start, []⟩

def ref1 : CellRef St1 := ⟨St1.cell, fun c s => { s with cell := c }⟩

def tref1 : TraceRef St1 := ⟨St1.trace, fun t s => { s with trace := t }⟩

/-- The subscriber layer of a direct subscription: consumer observer `O`,
cleanup action `() => {}` (the no-op returned by `Observable.from`). -/
def layer1 (O : CObserver) : Layer St1 := ⟨ref1, O.interp tref1, pure ()⟩

/-- The run `Observable.from(S).subscribe(O)`. -/
def subscribeFrom (S : List Int) (O : CObserver) : Except JsError Unit × St1 :=
  subscribeRun (layer1 O) (fromSubscribeFn (layer1 O) S) St1.start

/-- Subscribing to a scripted synchronous producer. -/
def subscribeScript (P : List PCmd) (O : CObserver) : Except JsError Unit × St1 :=
  subscribeRun (layer1 O) (scriptFn (layer1 O) P) St1.start

/-- Subscribing to an Observable whose subscribe-procedure throws
synchronously. -/
def subscribeThrow (e : JsError) (O : CObserver) : Except JsError Unit × St1 :=
  subscribeRun (layer1 O) (jsThrow e) St1.start

structure StMap where
  down : Cell
  up : Cell
  upInit : Bool
  trace : List Event
deriving DecidableEq

def StMap.start : StMap := ⟨Cell.start, Cell.start, false, []⟩

def downRefM : CellRef StMap := ⟨StMap.down, fun c s => { s with down := c }⟩

def upRefM : CellRef StMap := ⟨StMap.up, fun c s => { s with up := c }⟩

def trefM : TraceRef StMap := ⟨StMap.trace, fun t s => { s with trace := t }⟩

/-- The cleanup returned by `map`'s subscribe-procedure (line 148):
`() => subscription.unsubscribe()`.  Touching `subscription` before the
`const` of line 134 is initialized throws a `ReferenceError`; the upstream
subscription's own cleanup slot holds the no-op returned by `from`. -/
def mapDownCleanup : JsM StMap Unit := do
  let s ← jsGet
  if s.upInit then subscriptionUnsubscribe upRefM (pure ())
  else jsThrow .refError

/-- The outer (downstream) subscriber layer of a `map` subscription. -/
def downLayerM (O : CObserver) : Layer StMap :=
  ⟨downRefM, O.interp trefM, mapDownCleanup⟩

/-- Lines 134-146 of the source: the synthetic observer `map` hands to its
upstream.  A throw from `fn` (or from the downstream `next`) is caught and
routed to the downstream subscriber's `error`.  The transform `fn` is
defunctionalized as `Int → Except JsError Int`. -/
def mapInnerObs (f : Int → Except JsError Int) (O : CObserver) : NObserver StMap where
  next := some fun v =>
    jsTry
      (do
        let t ← fun s => (f v, s)
        subscriberNext (downLayerM O) t)
      (fun e => subscriberError (downLayerM O) e)
  error := some fun e => subscriberError (downLayerM O) e
  complete := some (subscriberComplete (downLayerM O))

/-- The upstream subscriber layer created by `this.subscribe({...})` inside
`map`'s subscribe-procedure; its cleanup slot holds the `() => {}` returned
by `from`. -/
def upLayerM (f : Int → Except JsError Int) (O : CObserver) : Layer StMap :=
  ⟨upRefM, mapInnerObs f O, pure ()⟩

/-- Lines 133-149 of the source: the subscribe-procedure of the Observable
built by `map(fn)`, with upstream subscribe-procedure `upFn`.  It subscribes
upstream (after which the `const subscription` binding is initialized) and
returns `() => subscription.unsubscribe()` (result `true`). -/
def mapSubscribeFn (f : Int → Except JsError Int) (O : CObserver)
    (upFn : JsM StMap Bool) : JsM StMap Bool := do
  subscribeRun (upLayerM f O) upFn
  jsModify fun s => { s with upInit := true }
  pure true

/-- The run `Observable.of(v).map(fn).subscribe(O)` — `of(v)` is `from([v])`
(lines 285-291 of the source). -/
def subscribeMapOf (f : Int → Except JsError Int) (v : Int) (O : CObserver) :
    Except JsError Unit × StMap :=
  subscribeRun (downLayerM O)
    (mapSubscribeFn f O (fromSubscribeFn (upLayerM f O) [v])) StMap.start

structure StTake where
  down : Cell
  up : Cell
  taken : Int
  upInit : Bool
  trace : List Event
deriving DecidableEq

def StTake.start : StTake := ⟨Cell.start, Cell.start, 0, false, []⟩

def downRefT : CellRef StTake := ⟨StTake.down, fun c s => { s with down := c }⟩

def upRefT : CellRef StTake := ⟨StTake.up, fun c s => { s with up := c }⟩

def trefT : TraceRef StTake := ⟨StTake.trace, fun t s => { s with trace := t }⟩

/-- The cleanup returned by `take`'s subscribe-procedure (line 221):
`() => subscription.unsubscribe()`, with the same temporal-dead-zone
behaviour as in `map`. -/
def takeDownCleanup : JsM StTake Unit := do
  let s ← jsGet
  if s.upInit then subscriptionUnsubscribe upRefT (pure ())
  else jsThrow .refError

/-- The outer (downstream) subscriber layer of a `take` subscription. -/
def downLayerT (O : CObserver) : Layer StTake :=
  ⟨downRefT, O.interp trefT, takeDownCleanup⟩

/-- Lines 205-219 of the source: the synthetic observer `take` hands to its
upstream.  On each value, if `taken < count`, forward it, increment `taken`,
and once `taken >= count` call downstream `complete()` and
`subscription.unsubscribe()` — the latter throws a `ReferenceError` when the
upstream emits synchronously, because the `const subscription` binding of
line 205 is still being initialized. -/
def takeInnerObs (count : Int) (O : CObserver) : NObserver StTake where
  next := some fun v => do
    let s ← jsGet
    if s.taken < count then do
      subscriberNext (downLayerT O) v
      jsModify fun s => { s with taken := s.taken + 1 }
      let s2 ← jsGet
      if count ≤ s2.taken then do
        subscriberComplete (downLayerT O)
        let s3 ← jsGet
        if s3.upInit then subscriptionUnsubscribe upRefT (pure ())
        else jsThrow .refError
  error := some fun e => subscriberError (downLayerT O) e
  complete := some (subscriberComplete (downLayerT O))

/-- The upstream subscriber layer created by `this.subscribe({...})` inside
`take`'s subscribe-procedure; its cleanup slot holds whatever cleanup the
upstream producer returned (modelled as a no-op probe, counted by
`cleanupRuns`). -/
def upLayerT (count : Int) (O : CObserver) : Layer StTake :=
  ⟨upRefT, takeInnerObs count O, pure ()⟩

/-- Lines 198-222 of the source: the subscribe-procedure of the Observable
built by `take(count)`, with upstream subscribe-procedure `upFn`.  If
`count <= 0` it completes immediately and returns `undefined` (no cleanup,
result `false`) without subscribing upstream; otherwise it initializes
`taken = 0`, subscribes upstream, and returns
`() => subscription.unsubscribe()` (result `true`). -/
def takeSubscribeFn (count : Int) (O : CObserver) (upFn : JsM StTake Bool) :
    JsM StTake Bool := do
  if count ≤ 0 then do
    subscriberComplete (downLayerT O)
    pure false
  else do
    jsModify fun s => { s with taken := 0 }
    subscribeRun (upLayerT count O) upFn
    jsModify fun s => { s with upInit := true }
    pure true

/-- Subscribing to `take(count)` over a scripted synchronous upstream. -/
def subscribeTakeScript (count : Int) (P : List PCmd) (O : CObserver) :
    Except JsError Unit × StTake :=
  subscribeRun (downLayerT O)
    (takeSubscribeFn count O (scriptFn (upLayerT count O) P)) StTake.start

/-- Subscribing to `take(count)` over the infinite synchronous producer,
with the given fuel bound on its loop. -/
def subscribeTakeSpin (count : Int) (fuel : Nat) (O : CObserver) :
    Except JsError Unit × StTake :=
  subscribeRun (downLayerT O)
    (takeSubscribeFn count O (spinFn (upLayerT count O) fuel 0)) StTake.start

/-- A consumer observer whose `next` handler throws the user error `e`
(its `error` and `complete` handlers are present and well behaved). -/
def throwNextObs (e : Int) : CObserver :=
  ⟨some fun _ => some (.user e), some fun _ => none, some none⟩

/-- Modelled from the spec: `from`'s iteration "should check the Subscriber's
terminal state between elements so that an early `unsubscribe()` during
iteration halts further emission" — i.e. the guard reads the subscriber's
actual terminal flag, not the absent `isStopped` property of the subscriber
object.  This definition exists only to be compared with `fromLoop`. -/
def fromLoopSpec (L : Layer σ) : List Int → JsM σ Unit
  | [] => pure ()
  | v :: rest => do
      let c ← readCell L.ref
      if c.isStopped then pure ()
      else do
        subscriberNext L v
        fromLoopSpec L rest

def PCmd.isTerminal : PCmd → Bool
  | .next _ => false
  | .error _ => true
  | .complete => true

/-- The state transformer realized by a scripted producer running against a
direct subscription with a well-behaved consumer (proved equal to the code's
behaviour in `scriptRun_eq`). -/
def script1 : List PCmd → St1 → St1
  | [], s => s
  | .next v :: r, s =>
    script1 r
      (if s.cell.isStopped
        then { s with cell := { s.cell with nextCalls := s.cell.nextCalls + 1 } }
        else { s with
          cell := { s.cell with nextCalls := s.cell.nextCalls + 1 },
          trace := s.trace ++ [.next v] })
  | .error e :: r, s =>
    script1 r
      (if s.cell.isStopped then s
        else { s with
          cell := { s.cell with isStopped := true },
          trace := s.trace ++ [.error e] })
  | .complete :: r, s =>
    script1 r
      (if s.cell.isStopped then s
        else { s with
          cell := { s.cell with isStopped := true },
          trace := s.trace ++ [Event.complete] })

def PCmd.isError : PCmd → Bool
  | .error _ => true
  | _ => false

def PCmd.isNextCmd : PCmd → Bool
  | .next _ => true
  | _ => false

def Event.isNext : Event → Bool
  | .next _ => true
  | _ => false

def numNextCmds (P : List PCmd) : Int :=
  ((P.filter PCmd.isNextCmd).length : Int)

/-- What the rest of a script does once the upstream subscriber is stopped:
each `next` call only bumps the invocation counter, terminal calls are
no-ops. -/
def takeDead : List PCmd → StTake → StTake
  | [], s => s
  | .next _ :: r, s =>
    takeDead r { s with up := { s.up with nextCalls := s.up.nextCalls + 1 } }
  | .error _ :: r, s => takeDead r s
  | .complete :: r, s => takeDead r s

/-- The state transformer realized by a scripted upstream running against
`take(count)`'s inner observer (proved equal to the code's behaviour in
`scriptRun_takeChar`); `t` is the current value of `taken`. -/
def takeScriptSpec (count : Int) : Int → List PCmd → StTake → Except JsError Unit × StTake
  | _, [], s => (.ok (), s)
  | t, .next v :: r, s =>
    if t + 1 < count then
      takeScriptSpec count (t + 1) r
        { s with
          down := { s.down with nextCalls := s.down.nextCalls + 1 },
          up := { s.up with nextCalls := s.up.nextCalls + 1 },
          taken := t + 1,
          trace := s.trace ++ [.next v] }
    else
      (.error .typeError,
        { s with
          down := { s.down with
            isStopped := true,
            nextCalls := s.down.nextCalls + 1 },
          up := { s.up with nextCalls := s.up.nextCalls + 1 },
          taken := t + 1,
          trace := s.trace ++ [.next v, Event.complete] })
  | _, .error e :: r, s =>
    (.ok (), takeDead r
      { s with
        down := { s.down with isStopped := true },
        up := { s.up with isStopped := true },
        trace := s.trace ++ [.error e] })
  | _, .complete :: r, s =>
    (.ok (), takeDead r
      { s with
        down := { s.down with isStopped := true },
        up := { s.up with isStopped := true },
        trace := s.trace ++ [Event.complete] })

/-- The consumer trace produced by `take(count)` over a script, starting
from `taken = t` (pure description, connected to the code through
`subscribeTakeScript_trace`). -/
def takeTr (count : Int) : Int → List PCmd → List Event
  | t, .next v :: r =>
    if t + 1 < count then .next v :: takeTr count (t + 1) r
    else [.next v, Event.complete]
  | _, .error e :: _ => [.error e]
  | _, .complete :: _ => [Event.complete]
  | _, [] => []

@[simp] theorem jsM_pure_apply (a : α) (s : σ) :
    (pure a : JsM σ α) s = (.ok a, s) := rfl

@[simp] theorem jsM_bind_apply (x : JsM σ α) (f : α → JsM σ β) (s : σ) :
    (x >>= f) s =
      match x s with
      | (.ok a, s') => f a s'
      | (.error e, s') => (.error e, s') := rfl

@[simp] theorem jsThrow_apply (e : JsError) (s : σ) :
    (jsThrow e : JsM σ α) s = (.error e, s) := rfl

@[simp] theorem jsTry_apply (x : JsM σ α) (h : JsError → JsM σ α) (s : σ) :
    jsTry x h s =
      match x s with
      | (.ok a, s') => (.ok a, s')
      | (.error e, s') => h e s' := rfl

@[simp] theorem jsGet_apply (s : σ) : (jsGet : JsM σ σ) s = (.ok s, s) := rfl

@[simp] theorem jsModify_apply (f : σ → σ) (s : σ) :
    (jsModify f : JsM σ Unit) s = (.ok (), f s) := rfl

@[simp] theorem readCell_apply (R : CellRef σ) (s : σ) :
    readCell R s = (.ok (R.get s), s) := rfl

theorem subscriberNext_stopped (O : CObserver) (v : Int) (s : St1)
    (h : s.cell.isStopped = true) :
    subscriberNext (layer1 O) v s
      = (.ok (), { s with cell := { s.cell with nextCalls := s.cell.nextCalls + 1 } }) := by
  simp [subscriberNext, modCell, readCell, layer1, ref1, h]

theorem subscriberError_stopped (O : CObserver) (e : JsError) (s : St1)
    (h : s.cell.isStopped = true) :
    subscriberError (layer1 O) e s = (.ok (), s) := by
  simp [subscriberError, modCell, readCell, layer1, ref1, h]

theorem subscriberComplete_stopped (O : CObserver) (s : St1)
    (h : s.cell.isStopped = true) :
    subscriberComplete (layer1 O) s = (.ok (), s) := by
  simp [subscriberComplete, modCell, readCell, layer1, ref1, h]

theorem unsubscribe_stopped (s : St1) (h : s.cell.isStopped = true) :
    subscriptionUnsubscribe ref1 (pure ()) s = (.ok (), s) := by
  simp [subscriptionUnsubscribe, modCell, readCell, ref1, h]

theorem subscriberError_stops (O : CObserver) (e : JsError) (s : St1) :
    ((subscriberError (layer1 O) e s).2).cell.isStopped = true := by
  by_cases h : s.cell.isStopped = true
  · simp [subscriberError_stopped O e s h, h]
  · simp only [Bool.not_eq_true] at h
    rcases O with ⟨n, er, c⟩
    cases er with
    | none =>
      simp [subscriberError, modCell, readCell, layer1, ref1, CObserver.interp,
        runCleanupSlot, h]
      split <;> simp
    | some f =>
      cases hf : f e with
      | none =>
        simp [subscriberError, modCell, readCell, layer1, ref1, CObserver.interp,
          runCleanupSlot, emitEvent, tref1, throwIf, h, hf]
        split <;> simp
      | some e2 =>
        simp [subscriberError, modCell, readCell, layer1, ref1, CObserver.interp,
          runCleanupSlot, emitEvent, tref1, throwIf, h, hf]
        split <;> simp

theorem subscriberComplete_stops (O : CObserver) (s : St1) :
    ((subscriberComplete (layer1 O) s).2).cell.isStopped = true := by
  by_cases h : s.cell.isStopped = true
  · simp [subscriberComplete_stopped O s h, h]
  · simp only [Bool.not_eq_true] at h
    rcases O with ⟨n, er, c⟩
    cases c with
    | none =>
      simp [subscriberComplete, modCell, readCell, layer1, ref1, CObserver.interp,
        runCleanupSlot, h]
      split <;> simp
    | some r =>
      cases r with
      | none =>
        simp [subscriberComplete, modCell, readCell, layer1, ref1, CObserver.interp,
          runCleanupSlot, emitEvent, tref1, throwIf, h]
        split <;> simp
      | some e2 =>
        simp [subscriberComplete, modCell, readCell, layer1, ref1, CObserver.interp,
          runCleanupSlot, emitEvent, tref1, throwIf, h]
        split <;> simp

theorem unsubscribe_stops (s : St1) :
    ((subscriptionUnsubscribe ref1 (pure ()) s).2).cell.isStopped = true := by
  by_cases h : s.cell.isStopped = true
  · simp [unsubscribe_stopped s h, h]
  · simp only [Bool.not_eq_true] at h
    simp [subscriptionUnsubscribe, modCell, readCell, ref1, runCleanupSlot, h]
    split <;> simp

theorem unsubscribe_live (s : St1) (h : s.cell.isStopped = false) :
    subscriptionUnsubscribe ref1 (pure ()) s
      = (.ok (), { s with
          cell := { s.cell with
            isStopped := true,
            hasCleanup := false,
            cleanupRuns := s.cell.cleanupRuns + (if s.cell.hasCleanup then 1 else 0) } }) := by
  by_cases hc : s.cell.hasCleanup = true
  · simp [subscriptionUnsubscribe, modCell, readCell, ref1, runCleanupSlot, h, hc]
  · simp only [Bool.not_eq_true] at hc
    simp [subscriptionUnsubscribe, modCell, readCell, ref1, runCleanupSlot, h, hc]

/-- Claim C2: for every subscription, once a terminal signal (`error` or
`complete`) has been delivered to the Observer, or `unsubscribe()` has been
called, every further producer call to `next`, `error` or `complete` invokes
no Observer callback: on a stopped subscription, `next` only bumps the
invocation counter (state and trace otherwise unchanged), and `error`,
`complete` and `unsubscribe` are exact no-ops; moreover `error`, `complete`
and `unsubscribe` each leave the terminal flag set from any state. -/
theorem C2_no_signal_after_terminal (O : CObserver) (v : Int) (e : JsError)
    (s t : St1) (h : s.cell.isStopped = true) :
    (subscriberNext (layer1 O) v s
        = (.ok (), { s with cell := { s.cell with nextCalls := s.cell.nextCalls + 1 } })) ∧
    (subscriberError (layer1 O) e s = (.ok (), s)) ∧
    (subscriberComplete (layer1 O) s = (.ok (), s)) ∧
    (subscriptionUnsubscribe ref1 (pure ()) s = (.ok (), s)) ∧
    (((subscriberError (layer1 O) e t).2).cell.isStopped = true) ∧
    (((subscriberComplete (layer1 O) t).2).cell.isStopped = true) ∧
    (((subscriptionUnsubscribe ref1 (pure ()) t).2).cell.isStopped = true) :=
  ⟨subscriberNext_stopped O v s h, subscriberError_stopped O e s h,
    subscriberComplete_stopped O s h, unsubscribe_stopped s h,
    subscriberError_stops O e t, subscriberComplete_stops O t,
    unsubscribe_stops t⟩

theorem C2_no_signal_after_terminal_witness :
    (⟨⟨true, true, 0, 0⟩, [Event.complete]⟩ : St1).cell.isStopped = true ∧
    subscriberError (layer1 fullObs) .typeError ⟨⟨true, true, 0, 0⟩, [Event.complete]⟩
      = (.ok (), ⟨⟨true, true, 0, 0⟩, [Event.complete]⟩) :=
  ⟨rfl, (C2_no_signal_after_terminal fullObs 0 .typeError
    ⟨⟨true, true, 0, 0⟩, [Event.complete]⟩ St1.start rfl).2.1⟩

/-- Claim C4: `unsubscribe()` is idempotent.  The first call on a
not-yet-terminated subscription sets the terminal flag, runs the registered
cleanup action exactly once (the invocation counter grows by one exactly when
a cleanup is registered) and clears the slot, raising no error; any call on
an already-stopped subscription — including after a previous `unsubscribe` or
after natural termination by `error` or `complete` — is an exact no-op. -/
theorem C4_unsubscribe_idempotent (O : CObserver) (e : JsError) (s : St1) :
    (s.cell.isStopped = false →
      subscriptionUnsubscribe ref1 (pure ()) s
        = (.ok (), { s with
            cell := { s.cell with
              isStopped := true,
              hasCleanup := false,
              cleanupRuns := s.cell.cleanupRuns + (if s.cell.hasCleanup then 1 else 0) } })) ∧
    (s.cell.isStopped = true →
      subscriptionUnsubscribe ref1 (pure ()) s = (.ok (), s)) ∧
    (subscriptionUnsubscribe ref1 (pure ())
        ((subscriptionUnsubscribe ref1 (pure ()) s).2)
      = (.ok (), (subscriptionUnsubscribe ref1 (pure ()) s).2)) ∧
    (subscriptionUnsubscribe ref1 (pure ()) ((subscriberError (layer1 O) e s).2)
      = (.ok (), (subscriberError (layer1 O) e s).2)) ∧
    (subscriptionUnsubscribe ref1 (pure ()) ((subscriberComplete (layer1 O) s).2)
      = (.ok (), (subscriberComplete (layer1 O) s).2)) :=
  ⟨fun h => unsubscribe_live s h,
    fun h => unsubscribe_stopped s h,
    unsubscribe_stopped _ (unsubscribe_stops s),
    unsubscribe_stopped _ (subscriberError_stops O e s),
    unsubscribe_stopped _ (subscriberComplete_stops O s)⟩

theorem C4_unsubscribe_idempotent_witness :
    (⟨⟨false, true, 0, 0⟩, []⟩ : St1).cell.isStopped = false ∧
    subscriptionUnsubscribe ref1 (pure ()) ⟨⟨false, true, 0, 0⟩, []⟩
      = (.ok (), ⟨⟨true, false, 1, 0⟩, []⟩) :=
  ⟨rfl, (C4_unsubscribe_idempotent fullObs .typeError ⟨⟨false, true, 0, 0⟩, []⟩).1 rfl⟩

/-- Claim C1 (the code contradicts it): when the consumer's `next` handler
throws `e`, the catch at line 48 runs `this.error(error)` — but `this` is
the Observable, which has no `error` method, so a `TypeError` propagates out
of `subscriber.next` into the producer (second conjunct: the call on a fresh
subscription returns exceptionally and leaves the subscription unstopped),
and on `from([1])` the consumer's `error` callback ends up being invoked with
that `TypeError` instead of `e`, via the `subscribe`-boundary catch (first
conjunct: the final trace is `[next 1, error TypeError]`, not
`[next 1, error e]`). -/
theorem C1_consumer_throw_typeError (e : Int) :
    subscribeFrom [1] (throwNextObs e)
      = (.ok (), ⟨⟨true, false, 0, 1⟩, [.next 1, .error .typeError]⟩) ∧
    subscriberNext (layer1 (throwNextObs e)) 1 St1.start
      = (.error .typeError, ⟨⟨false, false, 0, 1⟩, [.next 1]⟩) :=
  ⟨rfl, rfl⟩

/-- Claim C8: when the subscribe-procedure itself throws synchronously, the
error does not propagate out of `subscribe` (outcome `.ok`): it is delivered
through the subscriber's `error` path — the Observer's `error` callback, if
present, is invoked exactly once with that error — and the returned
subscription is already terminal, so a later `unsubscribe()` is a no-op. -/
theorem C8_subscribeFn_throw_contained (e : JsError) (O : CObserver) :
    subscribeThrow e O
      = (.ok (), ⟨⟨true, false, 0, 0⟩,
          match O.onError with
          | some _ => [.error e]
          | none => []⟩) ∧
    subscriptionUnsubscribe ref1 (pure ()) (subscribeThrow e O).2
      = (.ok (), (subscribeThrow e O).2) := by
  have h1 : subscribeThrow e O
      = (.ok (), ⟨⟨true, false, 0, 0⟩,
          match O.onError with
          | some _ => [.error e]
          | none => []⟩) := by
    rcases O with ⟨n, er, c⟩
    cases er with
    | none => rfl
    | some f =>
      cases hf : f e with
      | none =>
        simp [subscribeThrow, subscribeRun, subscriberError, runCleanupSlot, modCell,
          readCell, layer1, ref1, CObserver.interp, emitEvent, tref1, throwIf, hf,
          St1.start, Cell.start]
      | some e2 =>
        simp [subscribeThrow, subscribeRun, subscriberError, runCleanupSlot, modCell,
          readCell, layer1, ref1, CObserver.interp, emitEvent, tref1, throwIf, hf,
          St1.start, Cell.start]
  refine ⟨h1, ?_⟩
  rw [h1]
  exact unsubscribe_stopped _ rfl

theorem subscriberNext_live (O : CObserver) (hn : O.onNext = some fun _ => none)
    (v : Int) (s : St1) (h : s.cell.isStopped = false) :
    subscriberNext (layer1 O) v s
      = (.ok (), { s with
          cell := { s.cell with nextCalls := s.cell.nextCalls + 1 },
          trace := s.trace ++ [.next v] }) := by
  simp [subscriberNext, modCell, readCell, layer1, ref1, CObserver.interp, emitEvent,
    tref1, throwIf, hn, h]

theorem subscriberError_live (O : CObserver) (he : O.onError = some fun _ => none)
    (e : JsError) (s : St1) (h : s.cell.isStopped = false)
    (hcl : s.cell.hasCleanup = false) :
    subscriberError (layer1 O) e s
      = (.ok (), { s with
          cell := { s.cell with isStopped := true },
          trace := s.trace ++ [.error e] }) := by
  simp [subscriberError, runCleanupSlot, modCell, readCell, layer1, ref1,
    CObserver.interp, emitEvent, tref1, throwIf, he, h, hcl]

theorem subscriberComplete_live (O : CObserver) (hc : O.onComplete = some none)
    (s : St1) (h : s.cell.isStopped = false) (hcl : s.cell.hasCleanup = false) :
    subscriberComplete (layer1 O) s
      = (.ok (), { s with
          cell := { s.cell with isStopped := true },
          trace := s.trace ++ [Event.complete] }) := by
  simp [subscriberComplete, runCleanupSlot, modCell, readCell, layer1, ref1,
    CObserver.interp, emitEvent, tref1, throwIf, hc, h, hcl]

theorem fromLoop_live (O : CObserver) (hn : O.onNext = some fun _ => none) :
    ∀ (S : List Int) (s : St1), s.cell.isStopped = false →
    fromLoop (layer1 O) S s
      = (.ok (), { s with
          cell := { s.cell with nextCalls := s.cell.nextCalls + S.length },
          trace := s.trace ++ S.map Event.next }) := by
  intro S
  induction S with
  | nil => intro s h; simp [fromLoop]
  | cons v rest ih =>
    intro s h
    simp [fromLoop, jsTruthy, subscriberIsStoppedProp, subscriberNext_live O hn v s h,
      ih, h, List.append_assoc, Nat.add_assoc, Nat.add_comm 1 rest.length]

/-- Claim C3: subscribing to `Observable.from(S)` with a non-throwing
Observer (all three callbacks present, none throwing) synchronously invokes
`next` exactly once per element of `S`, in order, then `complete` exactly
once, with zero `error` invocations: the full consumer trace is
`S.map next ++ [complete]`, and `subscribe` returns normally. -/
theorem C3_from_delivers_in_order (S : List Int) (O : CObserver)
    (hO : FullNonThrowing O) :
    subscribeFrom S O
      = (.ok (), ⟨⟨true, true, 0, S.length⟩, S.map Event.next ++ [Event.complete]⟩) := by
  obtain ⟨hn, he, hc⟩ := hO
  simp [subscribeFrom, subscribeRun, fromSubscribeFn,
    fromLoop_live O hn, subscriberComplete_live O hc, St1.start, Cell.start]
  simp [modCell, layer1, ref1]

theorem C3_from_delivers_in_order_witness :
    FullNonThrowing fullObs ∧
    subscribeFrom [1, 2] fullObs
      = (.ok (), ⟨⟨true, true, 0, 2⟩, [.next 1, .next 2, .complete]⟩) :=
  ⟨⟨rfl, rfl, rfl⟩, C3_from_delivers_in_order [1, 2] fullObs ⟨rfl, rfl, rfl⟩⟩

theorem fromLoop_stopped (O : CObserver) :
    ∀ (S : List Int) (s : St1), s.cell.isStopped = true →
    fromLoop (layer1 O) S s
      = (.ok (), { s with
          cell := { s.cell with nextCalls := s.cell.nextCalls + S.length } }) := by
  intro S
  induction S with
  | nil => intro s h; simp [fromLoop]
  | cons v rest ih =>
    intro s h
    simp [fromLoop, jsTruthy, subscriberIsStoppedProp, subscriberNext_stopped O v s h,
      ih, h, Nat.add_assoc, Nat.add_comm 1 rest.length]

/-- Claim C9 (the code contradicts it): the guard at line 271,
`if (subscriber.isStopped) break`, reads a property that does not exist on
the subscriber object (always `undefined`), so `from`'s iteration never
halts: on a subscription that is already terminal it still pushes every
element of `S` into the subscriber (first conjunct: `subscriber.next` is
invoked `S.length` more times, each a stopped no-op).  The spec-modelled
loop that checks the subscriber's actual terminal flag stops at once
(remaining conjuncts: on `[5]` from a stopped state the code's loop performs
one further `next` invocation, the spec-modelled loop performs none). -/
theorem C9_from_guard_never_halts :
    (∀ (S : List Int) (s : St1), s.cell.isStopped = true →
      fromLoop (layer1 fullObs) S s
        = (.ok (), { s with
            cell := { s.cell with nextCalls := s.cell.nextCalls + S.length } })) ∧
    fromLoop (layer1 fullObs) [5] ⟨⟨true, false, 0, 0⟩, []⟩
      = (.ok (), ⟨⟨true, false, 0, 1⟩, []⟩) ∧
    fromLoopSpec (layer1 fullObs) [5] ⟨⟨true, false, 0, 0⟩, []⟩
      = (.ok (), ⟨⟨true, false, 0, 0⟩, []⟩) :=
  ⟨fromLoop_stopped fullObs, rfl, rfl⟩

theorem C9_from_guard_never_halts_witness :
    (⟨⟨true, true, 2, 0⟩, []⟩ : St1).cell.isStopped = true ∧
    fromLoop (layer1 fullObs) [3, 4] ⟨⟨true, true, 2, 0⟩, []⟩
      = (.ok (), ⟨⟨true, true, 2, 2⟩, []⟩) :=
  ⟨rfl, (C9_from_guard_never_halts).1 [3, 4] ⟨⟨true, true, 2, 0⟩, []⟩ rfl⟩

theorem scriptRun_eq (O : CObserver) (hO : FullNonThrowing O) :
    ∀ (P : List PCmd) (s : St1), s.cell.hasCleanup = false →
    scriptRun (layer1 O) P s = (.ok (), script1 P s) := by
  obtain ⟨hn, he, hc⟩ := hO
  intro P
  induction P with
  | nil => intro s h; simp [scriptRun, script1]
  | cons cmd r ih =>
    intro s h
    cases cmd with
    | next v =>
      by_cases hs : s.cell.isStopped = true
      · simp [scriptRun, script1, subscriberNext_stopped O v s hs, hs, ih, h]
      · simp only [Bool.not_eq_true] at hs
        simp [scriptRun, script1, subscriberNext_live O hn v s hs, hs, ih, h]
    | error e =>
      by_cases hs : s.cell.isStopped = true
      · simp [scriptRun, script1, subscriberError_stopped O e s hs, hs, ih, h]
      · simp only [Bool.not_eq_true] at hs
        simp [scriptRun, script1, subscriberError_live O he e s hs h, hs, ih, h]
    | complete =>
      by_cases hs : s.cell.isStopped = true
      · simp [scriptRun, script1, subscriberComplete_stopped O s hs, hs, ih, h]
      · simp only [Bool.not_eq_true] at hs
        simp [scriptRun, script1, subscriberComplete_live O hc s hs h, hs, ih, h]

theorem script1_hasCleanup : ∀ (P : List PCmd) (s : St1),
    (script1 P s).cell.hasCleanup = s.cell.hasCleanup := by
  intro P
  induction P with
  | nil => intro s; rfl
  | cons cmd r ih =>
    intro s
    cases cmd with
    | next v => by_cases hs : s.cell.isStopped = true <;> simp [script1, hs, ih]
    | error e => by_cases hs : s.cell.isStopped = true <;> simp [script1, hs, ih]
    | complete => by_cases hs : s.cell.isStopped = true <;> simp [script1, hs, ih]

theorem script1_cleanupRuns : ∀ (P : List PCmd) (s : St1),
    (script1 P s).cell.cleanupRuns = s.cell.cleanupRuns := by
  intro P
  induction P with
  | nil => intro s; rfl
  | cons cmd r ih =>
    intro s
    cases cmd with
    | next v => by_cases hs : s.cell.isStopped = true <;> simp [script1, hs, ih]
    | error e => by_cases hs : s.cell.isStopped = true <;> simp [script1, hs, ih]
    | complete => by_cases hs : s.cell.isStopped = true <;> simp [script1, hs, ih]

theorem script1_stopped : ∀ (P : List PCmd) (s : St1),
    (script1 P s).cell.isStopped = (s.cell.isStopped || P.any PCmd.isTerminal) := by
  intro P
  induction P with
  | nil => intro s; simp [script1]
  | cons cmd r ih =>
    intro s
    cases cmd with
    | next v =>
      by_cases hs : s.cell.isStopped = true <;>
        simp [script1, hs, ih, PCmd.isTerminal]
    | error e =>
      by_cases hs : s.cell.isStopped = true <;>
        simp [script1, hs, ih, PCmd.isTerminal]
    | complete =>
      by_cases hs : s.cell.isStopped = true <;>
        simp [script1, hs, ih, PCmd.isTerminal]

/-- Claim C10: when a subscribe-procedure delivers a terminal signal
synchronously (here: a scripted producer whose script contains `error` or
`complete`) and then returns a cleanup function, that cleanup is never
invoked: it is stored into the slot only after the terminal transition ran
with the slot still empty (final state: stopped, `hasCleanup = true`,
`cleanupRuns = 0`), and every later `unsubscribe()` is an exact no-op
because the terminal flag is already set. -/
theorem C10_sync_terminal_cleanup_never_runs (P : List PCmd) (O : CObserver)
    (hO : FullNonThrowing O) (hT : P.any PCmd.isTerminal = true) :
    (subscribeScript P O).1 = .ok () ∧
    ((subscribeScript P O).2).cell.isStopped = true ∧
    ((subscribeScript P O).2).cell.hasCleanup = true ∧
    ((subscribeScript P O).2).cell.cleanupRuns = 0 ∧
    subscriptionUnsubscribe ref1 (pure ()) (subscribeScript P O).2
      = (.ok (), (subscribeScript P O).2) := by
  have hrun : subscribeScript P O
      = (.ok (), { script1 P St1.start with
          cell := { (script1 P St1.start).cell with hasCleanup := true } }) := by
    simp [subscribeScript, subscribeRun, scriptFn,
      scriptRun_eq O hO P St1.start rfl]
    simp [modCell, layer1, ref1]
  have hstop : ((script1 P St1.start).cell).isStopped = true := by
    rw [script1_stopped P St1.start, hT]
    rfl
  refine ⟨by rw [hrun], ?_, by rw [hrun], ?_, ?_⟩
  · rw [hrun]
    simpa using hstop
  · rw [hrun]
    simpa using script1_cleanupRuns P St1.start
  · rw [hrun]
    exact unsubscribe_stopped _ (by simpa using hstop)

theorem C10_sync_terminal_cleanup_never_runs_witness :
    FullNonThrowing fullObs ∧
    ([PCmd.next 1, PCmd.complete].any PCmd.isTerminal = true) ∧
    ((subscribeScript [PCmd.next 1, PCmd.complete] fullObs).2).cell.hasCleanup = true ∧
    ((subscribeScript [PCmd.next 1, PCmd.complete] fullObs).2).cell.cleanupRuns = 0 :=
  ⟨⟨rfl, rfl, rfl⟩, rfl,
    (C10_sync_terminal_cleanup_never_runs [PCmd.next 1, PCmd.complete] fullObs
      ⟨rfl, rfl, rfl⟩ rfl).2.2.1,
    (C10_sync_terminal_cleanup_never_runs [PCmd.next 1, PCmd.complete] fullObs
      ⟨rfl, rfl, rfl⟩ rfl).2.2.2.1⟩

/-- Claim C7 (the code contradicts its teardown half): subscribing to
`of(1).map(fn)` where `fn` throws the user error `e` yields exactly one
consumer `error` callback carrying that very error, with zero `next` and
zero `complete` callbacks (trace `[error e]`) — but the upstream subscription
is NOT torn down: both cleanup slots are only registered after the
subscriptions have already terminated (`hasCleanup = true` in the final
state) and neither cleanup action is ever invoked (`cleanupRuns = 0` for the
downstream and the upstream cell alike). -/
theorem C7_map_throw_eval (e : Int) :
    subscribeMapOf (fun _ => .error (.user e)) 1 fullObs
      = (.ok (), ⟨⟨true, true, 0, 0⟩, ⟨true, true, 0, 1⟩, true, [.error (.user e)]⟩) :=
  rfl

/-- Claim C6 (the code contradicts its teardown part): subscribing to
`take(2)` over the infinite synchronous producer delivers exactly two `next`
values and one `complete` to the consumer, and the producer's emission loop
terminates — the result is the same for every fuel bound `fuel + 2`, so the
loop exits after two iterations (internally via the `ReferenceError` →
`TypeError` cascade, not via graceful cancellation) — but no cleanup action
ever fires: the producer throws before it can return one (`hasCleanup =
false`, `cleanupRuns = 0` on the upstream cell) and the downstream cleanup is
registered only after termination (`hasCleanup = true`, `cleanupRuns = 0`). -/
theorem C6_take_infinite_eval (fuel : Nat) :
    subscribeTakeSpin 2 (fuel + 2) fullObs
      = (.ok (), ⟨⟨true, true, 0, 2⟩, ⟨true, false, 0, 2⟩, 2, true,
          [.next 0, .next 1, .complete]⟩) := by
  have h1 : subscriberNext (upLayerT 2 fullObs) 0
        ⟨⟨false, false, 0, 0⟩, ⟨false, false, 0, 0⟩, 0, false, []⟩
      = (.ok (), ⟨⟨false, false, 0, 1⟩, ⟨false, false, 0, 1⟩, 1, false,
          [.next 0]⟩) := rfl
  have h2 : subscriberNext (upLayerT 2 fullObs) 1
        ⟨⟨false, false, 0, 1⟩, ⟨false, false, 0, 1⟩, 1, false, [.next 0]⟩
      = (.error .typeError,
          ⟨⟨true, false, 0, 2⟩, ⟨false, false, 0, 2⟩, 2, false,
            [.next 0, .next 1, .complete]⟩) := rfl
  have hcatch : subscriberError (upLayerT 2 fullObs) .typeError
        ⟨⟨true, false, 0, 2⟩, ⟨false, false, 0, 2⟩, 2, false,
          [.next 0, .next 1, .complete]⟩
      = (.ok (), ⟨⟨true, false, 0, 2⟩, ⟨true, false, 0, 2⟩, 2, false,
          [.next 0, .next 1, .complete]⟩) := rfl
  have hspin : spinFn (upLayerT 2 fullObs) (fuel + 2) 0
        ⟨⟨false, false, 0, 0⟩, ⟨false, false, 0, 0⟩, 0, false, []⟩
      = (.error .typeError,
          ⟨⟨true, false, 0, 2⟩, ⟨false, false, 0, 2⟩, 2, false,
            [.next 0, .next 1, .complete]⟩) := by
    simp only [spinFn]
    simp [h1, h2]
  simp [subscribeTakeSpin, subscribeRun, takeSubscribeFn, StTake.start, Cell.start,
    hspin, hcatch, modCell, downLayerT, downRefT]

theorem takeDown_next_live (v : Int) (s : StTake) (h : s.down.isStopped = false) :
    subscriberNext (downLayerT fullObs) v s
      = (.ok (), { s with
          down := { s.down with nextCalls := s.down.nextCalls + 1 },
          trace := s.trace ++ [.next v] }) := by
  simp [subscriberNext, modCell, readCell, downLayerT, downRefT, CObserver.interp,
    emitEvent, trefT, throwIf, fullObs, h]

theorem takeDown_complete_live (s : StTake) (h : s.down.isStopped = false)
    (hcl : s.down.hasCleanup = false) :
    subscriberComplete (downLayerT fullObs) s
      = (.ok (), { s with
          down := { s.down with isStopped := true },
          trace := s.trace ++ [Event.complete] }) := by
  simp [subscriberComplete, runCleanupSlot, modCell, readCell, downLayerT, downRefT,
    CObserver.interp, emitEvent, trefT, throwIf, fullObs, h, hcl]

theorem takeDown_error_live (e : JsError) (s : StTake) (h : s.down.isStopped = false)
    (hcl : s.down.hasCleanup = false) :
    subscriberError (downLayerT fullObs) e s
      = (.ok (), { s with
          down := { s.down with isStopped := true },
          trace := s.trace ++ [.error e] }) := by
  simp [subscriberError, runCleanupSlot, modCell, readCell, downLayerT, downRefT,
    CObserver.interp, emitEvent, trefT, throwIf, fullObs, h, hcl]

theorem takeDown_error_stopped (e : JsError) (s : StTake)
    (h : s.down.isStopped = true) :
    subscriberError (downLayerT fullObs) e s = (.ok (), s) := by
  simp [subscriberError, modCell, readCell, downLayerT, downRefT, h]

theorem takeUp_next_stopped (count : Int) (O : CObserver) (v : Int) (s : StTake)
    (h : s.up.isStopped = true) :
    subscriberNext (upLayerT count O) v s
      = (.ok (), { s with up := { s.up with nextCalls := s.up.nextCalls + 1 } }) := by
  simp [subscriberNext, modCell, readCell, upLayerT, upRefT, h]

theorem takeUp_error_stopped (count : Int) (O : CObserver) (e : JsError) (s : StTake)
    (h : s.up.isStopped = true) :
    subscriberError (upLayerT count O) e s = (.ok (), s) := by
  simp [subscriberError, modCell, readCell, upLayerT, upRefT, h]

theorem takeUp_complete_stopped (count : Int) (O : CObserver) (s : StTake)
    (h : s.up.isStopped = true) :
    subscriberComplete (upLayerT count O) s = (.ok (), s) := by
  simp [subscriberComplete, modCell, readCell, upLayerT, upRefT, h]

theorem subscriberError_via (L : Layer σ) (e : JsError) (k : JsError → JsM σ Unit)
    (s sMid s2 : σ)
    (hobs : L.obs.error = some k)
    (hlive : (L.ref.get s).isStopped = false)
    (hMid : L.ref.set { L.ref.get s with isStopped := true } s = sMid)
    (hk : k e sMid = (.ok (), s2))
    (hcl : (L.ref.get s2).hasCleanup = false) :
    subscriberError L e s = (.ok (), s2) := by
  simp [subscriberError, runCleanupSlot, modCell, readCell, hobs, hlive, hMid, hk, hcl]

theorem subscriberComplete_via (L : Layer σ) (k : JsM σ Unit)
    (s sMid s2 : σ)
    (hobs : L.obs.complete = some k)
    (hlive : (L.ref.get s).isStopped = false)
    (hMid : L.ref.set { L.ref.get s with isStopped := true } s = sMid)
    (hk : k sMid = (.ok (), s2))
    (hcl : (L.ref.get s2).hasCleanup = false) :
    subscriberComplete L s = (.ok (), s2) := by
  simp [subscriberComplete, runCleanupSlot, modCell, readCell, hobs, hlive, hMid, hk, hcl]

theorem subscriberNext_via_ok (L : Layer σ) (v : Int) (k : Int → JsM σ Unit)
    (s sB s2 : σ)
    (hobs : L.obs.next = some k)
    (hB : L.ref.set { L.ref.get s with nextCalls := (L.ref.get s).nextCalls + 1 } s = sB)
    (hlive : (L.ref.get sB).isStopped = false)
    (hk : k v sB = (.ok (), s2)) :
    subscriberNext L v s = (.ok (), s2) := by
  simp [subscriberNext, modCell, readCell, hobs, hB, hlive, hk]

theorem subscriberNext_via_throw (L : Layer σ) (v : Int) (k : Int → JsM σ Unit)
    (s sB s2 : σ) (e : JsError)
    (hobs : L.obs.next = some k)
    (hB : L.ref.set { L.ref.get s with nextCalls := (L.ref.get s).nextCalls + 1 } s = sB)
    (hlive : (L.ref.get sB).isStopped = false)
    (hk : k v sB = (.error e, s2)) :
    subscriberNext L v s = (.error .typeError, s2) := by
  simp [subscriberNext, modCell, readCell, hobs, hB, hlive, hk]

theorem takeUp_error_live (count : Int) (e : JsError) (s : StTake)
    (hu : s.up.isStopped = false) (hd : s.down.isStopped = false)
    (hdcl : s.down.hasCleanup = false) (hucl : s.up.hasCleanup = false) :
    subscriberError (upLayerT count fullObs) e s
      = (.ok (), { s with
          down := { s.down with isStopped := true },
          up := { s.up with isStopped := true },
          trace := s.trace ++ [.error e] }) := by
  refine subscriberError_via (upLayerT count fullObs) e _ s _ _ rfl hu rfl
    (takeDown_error_live e _ hd hdcl) hucl

theorem takeUp_complete_live (count : Int) (s : StTake)
    (hu : s.up.isStopped = false) (hd : s.down.isStopped = false)
    (hdcl : s.down.hasCleanup = false) (hucl : s.up.hasCleanup = false) :
    subscriberComplete (upLayerT count fullObs) s
      = (.ok (), { s with
          down := { s.down with isStopped := true },
          up := { s.up with isStopped := true },
          trace := s.trace ++ [Event.complete] }) := by
  refine subscriberComplete_via (upLayerT count fullObs) _ s _ _ rfl hu rfl
    (takeDown_complete_live _ hd hdcl) hucl

theorem takeUp_error_live_downStopped (count : Int) (e : JsError) (s : StTake)
    (hu : s.up.isStopped = false) (hd : s.down.isStopped = true)
    (hucl : s.up.hasCleanup = false) :
    subscriberError (upLayerT count fullObs) e s
      = (.ok (), { s with up := { s.up with isStopped := true } }) := by
  refine subscriberError_via (upLayerT count fullObs) e _ s _ _ rfl hu rfl
    (takeDown_error_stopped e _ hd) hucl

theorem scriptRun_dead (count : Int) (O : CObserver) :
    ∀ (r : List PCmd) (s : StTake), s.up.isStopped = true →
    scriptRun (upLayerT count O) r s = (.ok (), takeDead r s) := by
  intro r
  induction r with
  | nil => intro s h; simp [scriptRun, takeDead]
  | cons cmd rest ih =>
    intro s h
    cases cmd with
    | next v =>
      simp [scriptRun, takeDead, takeUp_next_stopped count O v s h, ih, h]
    | error e =>
      simp [scriptRun, takeDead, takeUp_error_stopped count O e s h, ih, h]
    | complete =>
      simp [scriptRun, takeDead, takeUp_complete_stopped count O s h, ih, h]

theorem scriptRun_takeChar (count : Int) :
    ∀ (P : List PCmd) (s : StTake),
    s.taken < count → s.upInit = false →
    s.down.isStopped = false → s.up.isStopped = false →
    s.down.hasCleanup = false → s.up.hasCleanup = false →
    scriptRun (upLayerT count fullObs) P s = takeScriptSpec count s.taken P s := by
  intro P
  induction P with
  | nil => intro s _ _ _ _ _ _; simp [scriptRun, takeScriptSpec]
  | cons cmd r ih =>
    intro s ht hui hds hus hdc huc
    cases cmd with
    | next v =>
      by_cases hlt : s.taken + 1 < count
      · have hnext : subscriberNext (upLayerT count fullObs) v s
            = (.ok (), { s with
                down := { s.down with nextCalls := s.down.nextCalls + 1 },
                up := { s.up with nextCalls := s.up.nextCalls + 1 },
                taken := s.taken + 1,
                trace := s.trace ++ [.next v] }) := by
          refine subscriberNext_via_ok (upLayerT count fullObs) v _ s _ _ rfl rfl hus ?_
          have hc1 : ¬ (count ≤ s.taken + 1) := by omega
          simp [takeInnerObs, upLayerT, upRefT, takeDown_next_live, hds, ht, hc1]
        simp [scriptRun, takeScriptSpec, hnext, ih, hlt, hui, hds, hus, hdc, huc]
      · have hnext : subscriberNext (upLayerT count fullObs) v s
            = (.error .typeError, { s with
                down := { s.down with
                  isStopped := true,
                  nextCalls := s.down.nextCalls + 1 },
                up := { s.up with nextCalls := s.up.nextCalls + 1 },
                taken := s.taken + 1,
                trace := s.trace ++ [.next v, Event.complete] }) := by
          refine subscriberNext_via_throw (upLayerT count fullObs) v _ s _ _ .refError
            rfl rfl hus ?_
          have hc1 : count ≤ s.taken + 1 := by omega
          simp [takeInnerObs, upLayerT, upRefT, takeDown_next_live,
            takeDown_complete_live, hds, hdc, ht, hc1, hui]
        simp [scriptRun, takeScriptSpec, hnext, hlt]
    | error e =>
      simp [scriptRun, takeScriptSpec, takeUp_error_live count e s hus hds hdc huc,
        scriptRun_dead]
    | complete =>
      simp [scriptRun, takeScriptSpec, takeUp_complete_live count s hus hds hdc huc,
        scriptRun_dead]

theorem takeDead_trace : ∀ (r : List PCmd) (s : StTake),
    (takeDead r s).trace = s.trace := by
  intro r
  induction r with
  | nil => intro s; rfl
  | cons cmd rest ih => intro s; cases cmd <;> simp [takeDead, ih]

theorem takeSpec_trace (count : Int) :
    ∀ (P : List PCmd) (t : Int) (s : StTake),
    (takeScriptSpec count t P s).2.trace = s.trace ++ takeTr count t P := by
  intro P
  induction P with
  | nil => intro t s; simp [takeScriptSpec, takeTr]
  | cons cmd r ih =>
    intro t s
    cases cmd with
    | next v =>
      by_cases hlt : t + 1 < count
      · simp [takeScriptSpec, takeTr, hlt, ih]
      · simp [takeScriptSpec, takeTr, hlt]
    | error e => simp [takeScriptSpec, takeTr, takeDead_trace]
    | complete => simp [takeScriptSpec, takeTr, takeDead_trace]

theorem takeDead_up : ∀ (r : List PCmd) (s : StTake),
    (takeDead r s).up.isStopped = s.up.isStopped ∧
    (takeDead r s).up.hasCleanup = s.up.hasCleanup := by
  intro r
  induction r with
  | nil => intro s; exact ⟨rfl, rfl⟩
  | cons cmd rest ih => intro s; cases cmd <;> simp [takeDead, ih]

theorem takeSpec_abort (count : Int) :
    ∀ (P : List PCmd) (t : Int) (s : StTake),
    s.up.isStopped = false → s.up.hasCleanup = false →
    (takeScriptSpec count t P s).1 = .ok () ∨
    ((takeScriptSpec count t P s).2.up.isStopped = false ∧
      (takeScriptSpec count t P s).2.up.hasCleanup = false ∧
      (takeScriptSpec count t P s).2.down.isStopped = true) := by
  intro P
  induction P with
  | nil => intro t s _ _; left; rfl
  | cons cmd r ih =>
    intro t s hu huc
    cases cmd with
    | next v =>
      by_cases hlt : t + 1 < count
      · simpa [takeScriptSpec, hlt] using
          ih (t + 1) _ (by simpa using hu) (by simpa using huc)
      · right
        simp [takeScriptSpec, hlt, hu, huc]
    | error e => left; simp [takeScriptSpec]
    | complete => left; simp [takeScriptSpec]

theorem subscribeTakeScript_trace (count : Int) (P : List PCmd) (h : 0 < count) :
    (subscribeTakeScript count P fullObs).2.trace = takeTr count 0 P := by
  have hn0 : ¬ (count ≤ 0) := by omega
  rcases hs : takeScriptSpec count 0 P
      ⟨⟨false, false, 0, 0⟩, ⟨false, false, 0, 0⟩, 0, false, []⟩ with ⟨r, s'⟩
  have hchar : scriptRun (upLayerT count fullObs) P
      ⟨⟨false, false, 0, 0⟩, ⟨false, false, 0, 0⟩, 0, false, []⟩ = (r, s') := by
    rw [scriptRun_takeChar count P
      ⟨⟨false, false, 0, 0⟩, ⟨false, false, 0, 0⟩, 0, false, []⟩ h rfl rfl rfl rfl rfl]
    exact hs
  have htr : s'.trace = takeTr count 0 P := by
    have := takeSpec_trace count P 0
      ⟨⟨false, false, 0, 0⟩, ⟨false, false, 0, 0⟩, 0, false, []⟩
    rw [hs] at this
    simpa using this
  cases r with
  | ok a =>
    simp [subscribeTakeScript, subscribeRun, takeSubscribeFn, scriptFn, StTake.start,
      Cell.start, hn0, hchar]
    simp [modCell, upRefT, downRefT, downLayerT, upLayerT, htr]
  | error e =>
    have habort := takeSpec_abort count P 0
      ⟨⟨false, false, 0, 0⟩, ⟨false, false, 0, 0⟩, 0, false, []⟩ rfl rfl
    rw [hs] at habort
    rcases habort with hok | ⟨hu', huc', hd'⟩
    · simp at hok
    · have herr := takeUp_error_live_downStopped count e s' hu' hd' huc'
      simp [subscribeTakeScript, subscribeRun, takeSubscribeFn, scriptFn, StTake.start,
        Cell.start, hn0, hchar, herr]
      simp [modCell, upRefT, downRefT, downLayerT, upLayerT, htr]

theorem takeTr_next_le (count : Int) :
    ∀ (P : List PCmd) (t : Int), t < count →
    (((takeTr count t P).filter Event.isNext).length : Int) ≤ count - t := by
  intro P
  induction P with
  | nil => intro t ht; simp [takeTr]; omega
  | cons cmd r ih =>
    intro t ht
    cases cmd with
    | next v =>
      by_cases hlt : t + 1 < count
      · have hr := ih (t + 1) hlt
        simp only [takeTr, hlt, if_true, List.filter_cons] at hr ⊢
        simp only [Event.isNext, if_true] at *
        simp only [List.length_cons] at *
        push_cast at *
        omega
      · simp [takeTr, hlt, Event.isNext]
        omega
    | error e =>
      simp [takeTr, Event.isNext]
      omega
    | complete =>
      simp [takeTr, Event.isNext]
      omega

theorem takeTr_no_error (count : Int) :
    ∀ (P : List PCmd) (t : Int), (P.all fun c => !c.isError) = true →
    ∀ e, Event.error e ∉ takeTr count t P := by
  intro P
  induction P with
  | nil => intro t _ e; simp [takeTr]
  | cons cmd r ih =>
    intro t hall e
    cases cmd with
    | next v =>
      simp only [List.all_cons, Bool.and_eq_true] at hall
      by_cases hlt : t + 1 < count
      · simp only [takeTr, hlt, if_true, List.mem_cons]
        rintro (hbad | hmem)
        · exact absurd hbad (by simp)
        · exact ih (t + 1) hall.2 e hmem
      · simp [takeTr, hlt]
    | error e2 =>
      exfalso
      simp [PCmd.isError] at hall
    | complete =>
      simp [takeTr]

theorem takeTr_one_complete (count : Int) :
    ∀ (P : List PCmd) (t : Int), (P.all fun c => !c.isError) = true →
    (PCmd.complete ∈ P ∨ count ≤ t + numNextCmds P) → t < count →
    (takeTr count t P).count Event.complete = 1 := by
  intro P
  induction P with
  | nil =>
    intro t _ hor ht
    rcases hor with hmem | hle
    · simp at hmem
    · simp [numNextCmds] at hle
      omega
  | cons cmd r ih =>
    intro t hall hor ht
    cases cmd with
    | next v =>
      simp only [List.all_cons, Bool.and_eq_true] at hall
      by_cases hlt : t + 1 < count
      · have hor2 : PCmd.complete ∈ r ∨ count ≤ (t + 1) + numNextCmds r := by
          rcases hor with hmem | hle
          · left
            rcases List.mem_cons.1 hmem with hbad | hm
            · exact absurd hbad (by simp)
            · exact hm
          · right
            simp only [numNextCmds, List.filter_cons, PCmd.isNextCmd, if_true,
              List.length_cons] at hle ⊢
            push_cast at hle ⊢
            omega
        simp only [takeTr, hlt, if_true, List.count_cons]
        rw [ih (t + 1) hall.2 hor2 hlt]
        simp
      · simp [takeTr, hlt, List.count_cons]
    | error e2 =>
      exfalso
      simp [PCmd.isError] at hall
    | complete =>
      simp [takeTr, List.count_cons]

/-- Claim C5, corrected.  For `take(count)` over an arbitrary synchronous
upstream producer (any script of `next`/`error`/`complete` calls) with the
standard consumer: when `0 < count`, at most `count` values are forwarded
downstream; if the upstream never signals `error`, the consumer never
receives an `error`, and — the amendment — the consumer receives exactly one
`complete` PROVIDED the upstream itself completes or supplies at least
`count` values (a silent upstream that ends without a terminal signal leaves
the downstream without a terminal, see the counterexample).  For
`count = 0`, `take` completes immediately with zero `next` calls and never
subscribes upstream (the upstream cell stays in its initial state and the
upstream subscription binding is never initialized). -/
theorem C5_take_amended (count : Int) (P : List PCmd) :
    (0 < count →
      ((((subscribeTakeScript count P fullObs).2.trace.filter Event.isNext).length : Int)
          ≤ count) ∧
      ((P.all fun c => !c.isError) = true →
        (∀ e, Event.error e ∉ (subscribeTakeScript count P fullObs).2.trace) ∧
        ((PCmd.complete ∈ P ∨ count ≤ numNextCmds P) →
          (subscribeTakeScript count P fullObs).2.trace.count Event.complete = 1))) ∧
    subscribeTakeScript 0 P fullObs
      = (.ok (), ⟨⟨true, false, 0, 0⟩, ⟨false, false, 0, 0⟩, 0, false,
          [Event.complete]⟩) := by
  constructor
  · intro h
    rw [subscribeTakeScript_trace count P h]
    refine ⟨?_, fun hall => ⟨takeTr_no_error count P 0 hall, fun hor => ?_⟩⟩
    · have := takeTr_next_le count P 0 h
      simpa using this
    · refine takeTr_one_complete count P 0 hall ?_ h
      simpa using hor
  · rfl

/-- Claim C5 as stated is false: `take(2)` over the upstream producer that
emits a single value and then returns without any terminal signal (a
legitimate Observable that does not itself error) leaves the downstream
consumer without any terminal signal at all — the trace is `[next 1]`, with
no `complete` ever delivered. -/
theorem C5_take_counterexample :
    (subscribeTakeScript 2 [.next 1] fullObs).2.trace = [.next 1] ∧
    Event.complete ∉ (subscribeTakeScript 2 [.next 1] fullObs).2.trace := by
  constructor
  · rfl
  · decide

theorem C5_take_amended_witness :
    ((0 : Int) < 2) ∧
    ((((subscribeTakeScript 2 [.next 7, .next 8, .next 9, .complete] fullObs).2.trace.filter
        Event.isNext).length : Int) ≤ 2) ∧
    (subscribeTakeScript 2 [.next 7, .next 8, .next 9, .complete] fullObs).2.trace.count
        Event.complete = 1 :=
  ⟨by norm_num,
    ((C5_take_amended 2 [.next 7, .next 8, .next 9, .complete]).1 (by norm_num)).1,
    (((C5_take_amended 2 [.next 7, .next 8, .next 9, .complete]).1 (by norm_num)).2
      (by decide)).2 (by decide)⟩
